import Mathlib

/-!
Verification of the ginga standard-renderer pipeline stages.

This file gives a shallow embedding of the pipeline stages in
`ginga/util/stages/render.py` and of the user-parameter callbacks of the
RGBMap stage in `ginga/util/stages/rgbmap.py`, and proves properties of
the embedded operations.

A raster is modelled as a list of rows of pixels, each pixel a list of
integer channel samples, plus a flag recording whether the numpy array
carries an explicit channel axis (3-D) or is monochrome (2-D).  Helper
routines of `ginga.trcalc` and of the stage base class, which are not part
of the sources being verified, are modelled from the specification text
(their doc comments say so) or taken as function parameters where the
properties proved do not depend on them.
-/

namespace Ginga

/-- A pixel: the list of channel samples, one integer per channel. -/
abbrev Pix := List Int

/-- A single-band plane (for example a split-off alpha band): one sample per
pixel position. -/
abbrev Plane := List (List Int)

/-- A raster buffer as passed between the pipeline stages of
`ginga/util/stages/render.py`.  `d3` records whether the underlying numpy
array is 3-D (explicit channel axis); for a 2-D array every pixel holds a
single sample. -/
structure Raster where
  d3 : Bool
  rows : List (List Pix)
deriving DecidableEq, Repr

namespace Raster

/-- Number of rows (`data.shape[0]`). -/
def height (r : Raster) : Nat := r.rows.length

/-- Number of columns (`data.shape[1]`). -/
def width (r : Raster) : Nat := (r.rows.headD []).length

/-- Number of channels (`data.shape[2]` for a 3-D array). -/
def depth (r : Raster) : Nat := ((r.rows.headD []).headD []).length

/-- Modelled from the spec: the shape consistency checked by the stage
contract validation primitive `verify_2d` of the stage base class (the
base class is not under the verified sources): every row has the common
width, every pixel has the common channel extent, and a 2-D array has
exactly one sample per pixel position. -/
def wellFormedB (r : Raster) : Bool :=
  (r.rows.all fun row => row.length == r.width &&
    row.all fun p => p.length == r.depth) &&
  (r.d3 || r.depth == 1)

/-- Apply a function to every pixel. -/
def mapPixels (f : Pix → Pix) (r : Raster) : Raster :=
  ⟨r.d3, r.rows.map (·.map f)⟩

/-- `np.flipud`: reverse the row order. -/
def flipud (r : Raster) : Raster := ⟨r.d3, r.rows.reverse⟩

/-- The numpy basic slice `data[y1:y1 + winHt, x1:x1 + winWd]`: numpy
slicing clamps to the array bounds, it never errors and never pads. -/
def trim (y1 winHt x1 winWd : Nat) (r : Raster) : Raster :=
  ⟨r.d3, ((r.rows.drop y1).take winHt).map fun row => (row.drop x1).take winWd⟩

/-- The channel slice `data[..., i]`. -/
def getChannel (i : Nat) (r : Raster) : Plane :=
  r.rows.map (·.map fun p => p.getD i 0)

/-- The channel slice `data[..., 0:k]`. -/
def takeChannels (k : Nat) (r : Raster) : Raster :=
  ⟨r.d3, r.rows.map (·.map (·.take k))⟩

/-- The in-place channel write `data[..., i] = plane`. -/
def setChannel (i : Nat) (pl : Plane) (r : Raster) : Raster :=
  ⟨r.d3, (r.rows.zip pl).map fun rp => (rp.1.zip rp.2).map fun pv => pv.1.set i pv.2⟩

/-- `np.insert(data, i, zeros, axis=2)`: a fresh array with a zero band
inserted at channel position `i`. -/
def insertChannel (i : Nat) (r : Raster) : Raster :=
  ⟨r.d3, r.rows.map (·.map fun p => p.insertIdx i 0)⟩

/-- The size of the trailing axis of the array: the channel extent for a
3-D array, the column extent for a 2-D array. -/
def lastAxisExtent (r : Raster) : Nat := if r.d3 then r.depth else r.width

/-- `astype(np.uint)`: cast every sample to an unsigned 64-bit integer
(wrap-around modulo 2 to the 64, as numpy casts do). -/
def toUint (r : Raster) : Raster :=
  mapPixels (·.map fun v => v % (2 ^ 64 : Int)) r

end Raster

/-- A channel order: the explicit tag sequence carried beside the buffer,
for example R, G, B, A. -/
abbrev ChOrder := List Char

/-- Modelled from the spec: `trcalc.reorder_image` (ginga.trcalc is not
under the verified sources) converts the source channel order to the
destination channel order: output channel `i` holds the source channel
whose tag is the `i`-th tag of the destination order. -/
def reorder_image (dstOrder : ChOrder) (r : Raster) (srcOrder : ChOrder) : Raster :=
  r.mapPixels fun p => dstOrder.map fun c => p.getD (srcOrder.indexOf c) 0

/-- One pixel of the configured background color laid out in the declared
channel order. -/
def fillPix (order : ChOrder) (r g b a : Int) : Pix :=
  order.map fun c =>
    if c = 'R' then r else if c = 'G' then g
    else if c = 'B' then b else if c = 'A' then a else 0

/-- Modelled from the spec: `trcalc.make_filled_array` (ginga.trcalc is not
under the verified sources) fills an `ht` by `wd` canvas with the
configured background color in the declared channel order. -/
def make_filled_array (ht wd : Nat) (order : ChOrder) (r g b a : Int) : Raster :=
  ⟨true, List.replicate ht (List.replicate wd (fillPix order r g b a))⟩

/-- A stage failure (`StageError`): per the spec it propagates uncaught to
the caller of the run, which the `Except` error summand models. -/
abbrev StageError := String

/-- Whether an `Except` result is the error case. -/
def isErr {ε α : Type _} : Except ε α → Bool
  | .error _ => true
  | .ok _ => false

/-- `np.isclose(x, 0.0)` with the numpy defaults `rtol=1e-05, atol=1e-08`:
against zero this is exactly the absolute-value test `|x| ≤ 1e-08`.  For a
rational in lowest terms with positive denominator this is the integer
test `|num| * 10^8 ≤ den`. -/
def isClose0 (x : ℚ) : Bool :=
  decide (x.num.natAbs * 100000000 ≤ x.den)

/-- Floor of a rational number, as an integer. -/
def qfloor (x : ℚ) : Int := x.num.fdiv x.den

/-- `int(np.round(x))`: numpy rounds half to even. -/
def roundHalfEven (x : ℚ) : Int :=
  let f := qfloor x
  let frac : ℚ := x - (f : ℚ)
  if frac < 1 / 2 then f
  else if 1 / 2 < frac then f + 1
  else if f % 2 = 0 then f else f + 1

/-! ### CreateBg stage (`render.py`, class `CreateBg`) -/

/-- What the `CreateBg.run` method publishes and sets in the context. -/
structure CreateBgOut where
  res : Option Raster
  orgDim : Option (Nat × Nat)
  orgOff : Option (Nat × Nat)
deriving DecidableEq, Repr

/-- The side of the square background canvas as the source computes it:
`int(np.sqrt(win_wd**2 + win_ht**2) + slop)` with `slop = 20`.  Python
`int(...)` truncates the nonnegative float toward zero, so this is the
floor of the square root, plus 20; `Nat.sqrt` is the floor square root. -/
def canvasSide (winWd winHt : Nat) : Nat :=
  Nat.sqrt (winWd ^ 2 + winHt ^ 2) + 20

/-- The canvas side as the words of the spec state it: the ceiling of
`sqrt(win_w^2 + win_h^2)`, plus 20.  Stated only to compare against
`canvasSide`, the definition translated from the source. -/
def specCanvasSide (winWd winHt : Nat) : Nat :=
  (if Nat.sqrt (winWd ^ 2 + winHt ^ 2) ^ 2 = winWd ^ 2 + winHt ^ 2
   then Nat.sqrt (winWd ^ 2 + winHt ^ 2)
   else Nat.sqrt (winWd ^ 2 + winHt ^ 2) + 1) + 20

/-- `CreateBg.run`: errors unless it is the first stage; when bypassed
publishes an empty result; otherwise allocates the square canvas filled
with the background color (`r`, `g`, `b`, with full alpha 255 for the
uint8 canvas, as `make_filled_array(..., 1.0)` scales alpha to the dtype
range) and records the original dimensions and center offsets. -/
def CreateBg.run (prevPresent bypass : Bool) (winWd winHt : Nat)
    (order : ChOrder) (r g b : Int) : Except StageError CreateBgOut :=
  if prevPresent then .error "viewer-createbg in wrong location"
  else if bypass then .ok ⟨none, none, none⟩
  else
    let side := canvasSide winWd winHt
    let wd := side
    let ht := side
    let ncx := wd / 2
    let ncy := ht / 2
    let resNp := make_filled_array ht wd order r g b 255
    .ok ⟨some resNp, some (wd, ht), some (ncx, ncy)⟩

/-! ### Rotate stage (`render.py`, class `Rotate`) -/

/-- What a `Rotate.run` call leaves behind.  `prevBuf` is the content of
the buffer published by the previous stage after the run: the source
copies (`np.copy`) before rotating in place (`trcalc.rotate_clip` with
`out=` the copy), and `np.flipud` returns a read-only view, so the
predecessor buffer is never written. -/
structure RotateOut where
  prevBuf : Raster
  res : Raster
  dst : Int × Int
deriving DecidableEq, Repr

/-- `Rotate.run`.  `rotFn` stands for `trcalc.rotate_clip` (ginga.trcalc is
not under the verified sources); the properties proved hold for every
rotation function.  When the rotation is within `np.isclose` of zero the
rotation step is skipped entirely; when `viewer._invert_y` is set the frame
is flipped vertically; finally the destination anchor is recomputed from
the center and the tracked offsets using the post-transform height. -/
def Rotate.run (data : Raster) (bypass : Bool) (rotDeg : ℚ) (invertY : Bool)
    (rotFn : Raster → Raster) (xoff yoff ctrX ctrY : Int) :
    Except StageError RotateOut :=
  if ¬ data.wellFormedB then .error "malformed input"
  else
    let d1 := if ¬ bypass ∧ ¬ isClose0 rotDeg then rotFn data else data
    let d2 := if ¬ bypass ∧ invertY then d1.flipud else d1
    let ht : Int := d2.rows.length
    .ok ⟨data, d2, (ctrX - xoff, ctrY - (ht - yoff))⟩

/-! ### Output stage (`render.py`, class `Output`) -/

/-- What the `Output.run` method publishes and sets in the context. -/
structure OutputOut where
  res : Raster
  outOrder : ChOrder
deriving DecidableEq, Repr

/-- `Output.run`: validates the input, and unless bypassed checks that the
raster covers the requested window and that the computed destination
anchor has no positive component, then trims to the window size at the
anchor and reorders channels to the order required by the renderer. -/
def Output.run (data : Raster) (bypass : Bool) (winWd winHt : Nat)
    (dstX dstY : Int) (stateOrder dstOrder : ChOrder) :
    Except StageError OutputOut :=
  if ¬ data.wellFormedB then .error "malformed input"
  else if bypass then .ok ⟨data, stateOrder⟩
  else
    let ht := data.height
    let wd := data.width
    if wd < winWd ∨ ht < winHt then
      .error "pipeline output does not cover window"
    else if 0 < dstX ∨ 0 < dstY then
      .error "pipeline calculated dst is not correct"
    else
      let x1 := dstX.natAbs
      let y1 := dstY.natAbs
      let d1 := data.trim y1 winHt x1 winWd
      let d2 := reorder_image dstOrder d1 stateOrder
      .ok ⟨d2, dstOrder⟩

/-! ### Scale stage (`render.py`, class `Scale`) -/

/-- Modelled from the spec: `trcalc.calc_image_merge_clip` (ginga.trcalc is
not under the verified sources) intersects the visible viewport
`[xmin, xmax] x [ymin, ymax]` (in data coordinates) with the rectangle of
the object data placed at the destination anchor, and returns the shifted
anchor together with the clipped source rectangle. -/
def calcImageMergeClip (xmin ymin xmax ymax dstX dstY a1 b1 a2 b2 : ℚ) :
    (ℚ × ℚ) × (ℚ × ℚ) × (ℚ × ℚ) :=
  let nDstX := max dstX xmin
  let nDstY := max dstY ymin
  let na1 := a1 + (nDstX - dstX)
  let nb1 := b1 + (nDstY - dstY)
  let na2 := a2 - max 0 ((dstX + (a2 - a1)) - xmax)
  let nb2 := b2 - max 0 ((dstY + (b2 - b1)) - ymax)
  ((nDstX, nDstY), (na1, nb1), (na2, nb2))

/-- What a `Scale.run` call leaves behind.  `visible = none` means the
per-object cache visibility flag was not touched; `stopped` records a
`pipeline.stop()` call, which aborts only the remainder of the current
(per-object) mini-pipeline run. -/
structure ScaleOut where
  res : Option Raster
  visible : Option Bool
  stopped : Bool
  offset : Option (ℚ × ℚ)
deriving DecidableEq, Repr

/-- `Scale.run`: with no image attached publishes an empty result;
otherwise clips the data rectangle against the visible viewport.  An empty
clipped rectangle means the image is completely off the screen: the stage
publishes an empty result, marks the cache invisible and stops the
mini-pipeline run.  Otherwise it scales the clipped cutout (`cutoutFn`
stands for `trcalc.get_scaled_cutout_basic`, not under the verified
sources), optionally flips it, and records the offset from the pan
position. -/
def Scale.run (imageData : Option Raster)
    (xmin ymin xmax ymax dstX dstY : ℚ)
    (scaleX scaleY imgScaleX imgScaleY : ℚ)
    (imgInterp : Option String) (settingsInterp : String)
    (supportedInterp : List String) (flipy : Bool)
    (panX panY dataOff : ℚ)
    (cutoutFn : Raster → ℚ → ℚ → ℚ → ℚ → ℚ → ℚ → String → Raster) :
    Except StageError ScaleOut :=
  match imageData with
  | none => .ok ⟨none, none, false, none⟩
  | some dataNp =>
    if ¬ dataNp.wellFormedB then .error "malformed input"
    else
      let ht := dataNp.height
      let wd := dataNp.width
      let clip := calcImageMergeClip xmin ymin xmax ymax dstX dstY
        0 0 ((wd : ℚ) - 1) ((ht : ℚ) - 1)
      let dstX2 := clip.1.1
      let dstY2 := clip.1.2
      let a1 := clip.2.1.1
      let b1 := clip.2.1.2
      let a2 := clip.2.2.1
      let b2 := clip.2.2.2
      if a2 - a1 ≤ 0 ∨ b2 - b1 ≤ 0 then
        .ok ⟨none, some false, true, none⟩
      else
        let sx := scaleX * imgScaleX
        let sy := scaleY * imgScaleY
        let interp0 := imgInterp.getD settingsInterp
        let interp := if supportedInterp.contains interp0 then interp0 else "basic"
        let data0 := cutoutFn dataNp a1 b1 a2 b2 sx sy interp
        let data1 := if flipy then data0.flipud else data0
        let px := panX + dataOff
        let py := panY + dataOff
        .ok ⟨some data1, some true, false, some ((dstX2 - px) * scaleX, (dstY2 - py) * scaleY)⟩

/-- The per-object inputs of one `Scale.run` call inside the overlay walk. -/
structure ScaleArgs where
  imageData : Option Raster
  xmin : ℚ
  ymin : ℚ
  xmax : ℚ
  ymax : ℚ
  dstX : ℚ
  dstY : ℚ
  scaleX : ℚ
  scaleY : ℚ
  imgScaleX : ℚ
  imgScaleY : ℚ
  imgInterp : Option String
  settingsInterp : String
  supportedInterp : List String
  flipy : Bool
  panX : ℚ
  panY : ℚ
  dataOff : ℚ
  cutoutFn : Raster → ℚ → ℚ → ℚ → ℚ → ℚ → ℚ → String → Raster

/-- Run the Scale stage of the mini-pipeline of one overlay object.  When
the stage stops the run, the remaining mini-pipeline stages of this object
are skipped; an uncaught `StageError` would instead propagate out of the
overlay walk. -/
def runObjScale (o : ScaleArgs) : Except StageError ScaleOut :=
  Scale.run o.imageData o.xmin o.ymin o.xmax o.ymax o.dstX o.dstY
    o.scaleX o.scaleY o.imgScaleX o.imgScaleY o.imgInterp o.settingsInterp
    o.supportedInterp o.flipy o.panX o.panY o.dataOff o.cutoutFn

/-- The outer overlay pass over the image-bearing objects of the scene
graph, in order: each object runs its mini-pipeline; a `StageError`
propagates uncaught and aborts the walk, which `mapM` over `Except`
models. -/
def overlayPass (objs : List ScaleArgs) : Except StageError (List ScaleOut) :=
  objs.mapM runObjScale

/-- Emptiness of the intersection of the visible viewport with the
rectangle of the object data placed at its destination anchor (the
horizontal or the vertical extent of the intersection is not positive). -/
def interEmpty (xmin ymin xmax ymax dstX dstY : ℚ) (wd ht : Nat) : Prop :=
  min xmax (dstX + ((wd : ℚ) - 1)) - max xmin dstX ≤ 0 ∨
  min ymax (dstY + ((ht : ℚ) - 1)) - max ymin dstY ≤ 0

/-! ### Reorder stage (`render.py`, class `Reorder`) -/

/-- What a `Reorder.run` call publishes, together with the value of the
`alpha` context key after the run (`none` on the empty-input path, where
the context is left untouched, modelled by returning the incoming
value). -/
structure ReorderOut where
  res : Option Raster
  alphaCtx : Option Plane
deriving DecidableEq, Repr

/-- `Reorder.run`: an empty input is published unchanged; a color
(`RGBImage`) input whose order differs from the pipeline order is
reordered; then, if the declared source order carries an alpha channel,
the band at the index of the tag A in the source order is split off into
the context and the channels before that index are kept (reshaped to 2-D
when a single channel remains). -/
def Reorder.run (dataIn : Option Raster) (isRGBImage : Bool)
    (imageOrder stateOrder : ChOrder) (alphaCtxIn : Option Plane) :
    Except StageError ReorderOut :=
  match dataIn with
  | none => .ok ⟨none, alphaCtxIn⟩
  | some d0 =>
    if ¬ d0.wellFormedB then .error "malformed input"
    else
      let d1 := if isRGBImage ∧ imageOrder ≠ stateOrder
                then reorder_image stateOrder d0 imageOrder else d0
      if ¬ imageOrder.contains 'A' then
        .ok ⟨some d1, none⟩
      else
        let aIdx := imageOrder.indexOf 'A'
        let alpha := d1.getChannel aIdx
        let d2 := d1.takeChannels aIdx
        let dOut := if d2.depth = 1 then { d2 with d3 := false } else d2
        .ok ⟨some dOut, some alpha⟩

/-! ### Cuts stage (`render.py`, class `Cuts`) -/

/-- `Cuts.run`: an empty input is published unchanged; otherwise the cut
levels are applied (`cutLevelsFn` stands for `autocuts.cut_levels`, not
under the verified sources, mapping `[loval, hival]` onto
`[vmin, vmax] = [0, hash_size - 1]`) and the result is cast to the
unsigned index type. -/
def Cuts.run (dataIn : Option Raster) (loval hival : ℚ) (hashSize : Nat)
    (cutLevelsFn : Raster → ℚ → ℚ → Nat → Nat → Raster) :
    Except StageError (Option Raster) :=
  match dataIn with
  | none => .ok none
  | some d =>
    if ¬ d.wellFormedB then .error "malformed input"
    else
      let vmin := 0
      let vmax := hashSize - 1
      .ok (some (cutLevelsFn d loval hival vmin vmax).toUint)

/-! ### RGBMap stage (`render.py`, class `RGBMap`) -/

/-- `RGBMap.run` of the renderer mini-pipeline: an empty input is
published unchanged; otherwise the quantized indices are looked up through
the color table (`getRgbArrayFn` stands for `rgbmap.get_rgb_array`, not
under the verified sources). -/
def RGBMap.run (arrIn : Option Raster) (stateOrder : ChOrder)
    (getRgbArrayFn : Raster → ChOrder → Raster) :
    Except StageError (Option Raster) :=
  match arrIn with
  | none => .ok none
  | some a =>
    if ¬ a.wellFormedB then .error "malformed input"
    else .ok (some (getRgbArrayFn a.toUint stateOrder))

/-! ### Merge stage (`render.py`, class `Merge`) -/

/-- What a `Merge.run` call leaves behind.  `prevBuf` is the content of
the buffer published by the previous stage after the run: `np.insert`
allocates a fresh array, but the in-place write
`rgbarr[..., a_idx] = alpha` goes through the existing reference when no
insertion happened, so it then writes the predecessor buffer. -/
structure MergeOut where
  prevBuf : Option Raster
  dstarr : Raster
  drawn : Bool
deriving DecidableEq, Repr

/-- `Merge.run`: with nothing to merge it returns at once, leaving the
shared destination and the cache untouched; otherwise it requires a 3-D
input with at least three channels, computes the canvas position from the
destination buffer center plus the offsets (rounded), re-attaches a
previously split alpha band (inserting a zero band first when the input
lacks one), and composites into the shared destination buffer
(`overlayFn` stands for `trcalc.overlay_image` and `convFn` for
`trcalc.array_convert`, neither under the verified sources), finally
marking the cache drawn. -/
def Merge.run (rgbIn : Option Raster) (dstarrIn : Raster) (alphaCtx : Option Plane)
    (stateOrder : ChOrder) (offX offY : ℚ) (drawnIn : Bool)
    (convFn : Int → Int)
    (overlayFn : Raster → Int × Int → Raster → Raster) :
    Except StageError MergeOut :=
  match rgbIn with
  | none => .ok ⟨none, dstarrIn, drawnIn⟩
  | some rgb0 =>
    if ¬ rgb0.wellFormedB then .error "malformed input"
    else if ¬ (rgb0.d3 = true ∧ 3 ≤ rgb0.depth) then .error "Not an RGB array"
    else
      let ht := dstarrIn.height
      let wd := dstarrIn.width
      let cvsX := roundHalfEven ((wd : ℚ) * (1 / 2) + offX)
      let cvsY := roundHalfEven ((ht : ℚ) * (1 / 2) + offY)
      let step : Raster × Raster :=
        match alphaCtx with
        | none => (rgb0, rgb0)
        | some apl =>
          if stateOrder.contains 'A' then
            let aIdx := stateOrder.indexOf 'A'
            let apl2 := apl.map (·.map convFn)
            if rgb0.depth ≠ 4 then
              ((rgb0.insertChannel aIdx).setChannel aIdx apl2, rgb0)
            else
              let m := rgb0.setChannel aIdx apl2
              (m, m)
          else (rgb0, rgb0)
      let dst2 := overlayFn dstarrIn (cvsX, cvsY) step.1
      .ok ⟨some step.2, dst2, true⟩

/-! ### Overlay orchestrator dispatch (`render.py`, `Overlays._prepare_norm_image`) -/

/-- The stages of the mini-pipeline of a value-mapped (`NormImage`)
overlay, in declared order. -/
inductive MiniStage where
  | scale
  | reorder
  | cuts
  | rgbmap
  | merge
deriving DecidableEq, Repr

/-- The stage list built for a value-mapped overlay. -/
def normStages : List MiniStage :=
  [.scale, .reorder, .cuts, .rgbmap, .merge]

/-- The partial re-run entry point chosen by
`Overlays._prepare_norm_image` for an overlay whose mini-pipeline is
already built: the index of the stage the mini-pipeline is re-run from,
or `none` when nothing runs at all. -/
def prepareNormImage (whence : ℚ) (visible : Bool) : Option Nat :=
  if whence ≤ 0 then some 0
  else if ¬ visible then none
  else if whence ≤ 1 then some 2
  else if whence ≤ 2 then some 3
  else some 4

/-! ### RGBMap user-parameter callbacks (`rgbmap.py`, class `RGBMap`) -/

/-- A parameter value as recorded in an undo record. -/
inductive PVal where
  | s (v : String)
  | q (v : ℚ)
  | b (v : Bool)
deriving DecidableEq, Repr

/-- An undo record (`StageAction`): the stage, the old parameter values,
the new parameter values, and a description. -/
structure StageAction where
  stage : String
  oldParams : List (String × PVal)
  newParams : List (String × PVal)
  descr : String
deriving DecidableEq, Repr

/-- The calls a parameter callback makes on the pipeline, in order:
`pipeline.push(action)` and `pipeline.run_from(stage)`. -/
inductive PipeEvent where
  | push (a : StageAction)
  | runFrom (stage : String)
deriving DecidableEq, Repr

/-- How many undo records a callback pushed. -/
def countPushes (evs : List PipeEvent) : Nat :=
  (evs.filter fun e => match e with | .push _ => true | .runFrom _ => false).length

/-- The persistent user parameters of the RGBMap stage of `rgbmap.py`. -/
structure RGBMapParams where
  calgName : String
  cmapName : String
  imapName : String
  invertCmap : Bool
  rotateCmapPct : ℚ
  contrast : ℚ
  brightness : ℚ
deriving DecidableEq, Repr

/-- The stage name declared by the RGBMap stage of `rgbmap.py`. -/
def rgbmapStageName : String := "rgb-mapper"

/-- `RGBMap.set_cmap_cb`: the user picked color map `cmapNames[index]`. -/
def setCmapCb (p : RGBMapParams) (cmapNames : List String) (index : Nat) :
    RGBMapParams × List PipeEvent :=
  let old := p.cmapName
  let name := cmapNames.getD index ""
  let p2 := { p with cmapName := name }
  (p2, [.push ⟨rgbmapStageName, [("cmap_name", .s old)],
          [("cmap_name", .s p2.cmapName)], "rgbmap / change cmap"⟩,
        .runFrom rgbmapStageName])

/-- `RGBMap.set_imap_cb`: the user picked intensity map `imapNames[index]`. -/
def setImapCb (p : RGBMapParams) (imapNames : List String) (index : Nat) :
    RGBMapParams × List PipeEvent :=
  let old := p.imapName
  let name := imapNames.getD index ""
  let p2 := { p with imapName := name }
  (p2, [.push ⟨rgbmapStageName, [("imap_name", .s old)],
          [("imap_name", .s p2.imapName)], "rgbmap / change imap"⟩,
        .runFrom rgbmapStageName])

/-- `RGBMap.set_calg_cb`: the user picked distribution algorithm
`calgNames[index]`. -/
def setCalgCb (p : RGBMapParams) (calgNames : List String) (index : Nat) :
    RGBMapParams × List PipeEvent :=
  let old := p.calgName
  let name := calgNames.getD index ""
  let p2 := { p with calgName := name }
  (p2, [.push ⟨rgbmapStageName, [("calg_name", .s old)],
          [("calg_name", .s p2.calgName)], "rgbmap / change calg"⟩,
        .runFrom rgbmapStageName])

/-- `RGBMap.rotate_cmap_cb`: the user moved the rotation slider to `val`
(percent). -/
def rotateCmapCb (p : RGBMapParams) (val : ℚ) :
    RGBMapParams × List PipeEvent :=
  let old := p.rotateCmapPct
  let pct := val / 100
  let p2 := { p with rotateCmapPct := pct }
  (p2, [.push ⟨rgbmapStageName, [("rotate_cmap", .q old)],
          [("rotate_cmap", .q p2.rotateCmapPct)],
          "rgbmap / rotate cmap: " ++ toString pct⟩,
        .runFrom rgbmapStageName])

/-- `RGBMap.invert_cmap_cb`: the user toggled color-map inversion. -/
def invertCmapCb (p : RGBMapParams) (tf : Bool) :
    RGBMapParams × List PipeEvent :=
  let old := p.invertCmap
  let p2 := { p with invertCmap := tf }
  (p2, [.push ⟨rgbmapStageName, [("invert_cmap", .b old)],
          [("invert_cmap", .b p2.invertCmap)],
          "rgbmap / invert cmap " ++ toString tf⟩,
        .runFrom rgbmapStageName])

/-- `RGBMap.contrast_set_cb`: the user moved the contrast slider to `val`
(percent). -/
def contrastSetCb (p : RGBMapParams) (val : ℚ) :
    RGBMapParams × List PipeEvent :=
  let old := p.contrast
  let pct := val / 100
  let p2 := { p with contrast := pct }
  (p2, [.push ⟨rgbmapStageName, [("contrast", .q old)],
          [("contrast", .q p2.contrast)],
          "rgbmap / contrast: " ++ toString pct⟩,
        .runFrom rgbmapStageName])

/-- `RGBMap.brightness_set_cb`: the user moved the brightness slider to
`val` (percent). -/
def brightnessSetCb (p : RGBMapParams) (val : ℚ) :
    RGBMapParams × List PipeEvent :=
  let old := p.brightness
  let pct := val / 100
  let p2 := { p with brightness := pct }
  (p2, [.push ⟨rgbmapStageName, [("brightness", .q old)],
          [("brightness", .q p2.brightness)],
          "rgbmap / brightness: " ++ toString pct⟩,
        .runFrom rgbmapStageName])

/-- `RGBMap.copy_from_viewer_cb`: copies the color settings of the viewer
into the rgbmap object of the stage, then re-runs the pipeline from this
stage.  It pushes no undo record and does not touch the tracked stage
parameters. -/
def copyFromViewerCb (p : RGBMapParams) : RGBMapParams × List PipeEvent :=
  (p, [.runFrom rgbmapStageName])

/-! ### Concrete fixtures for counterexamples and witnesses -/

/-- The channel order R, G, B. -/
def ordRGB : ChOrder := ['R', 'G', 'B']

/-- The channel order R, G, B, A. -/
def ordRGBA : ChOrder := ['R', 'G', 'B', 'A']

/-- A well-formed 2 by 2 raster with three channels and distinct samples. -/
def raster22 : Raster :=
  ⟨true, [[[1, 2, 3], [4, 5, 6]], [[7, 8, 9], [10, 11, 12]]]⟩

/-- A well-formed 1 by 1 raster with three channels. -/
def raster11 : Raster := ⟨true, [[[1, 2, 3]]]⟩

/-- A well-formed 3 by 3 raster with three channels and distinct samples. -/
def raster33 : Raster :=
  ⟨true, [[[1, 2, 3], [4, 5, 6], [7, 8, 9]],
          [[10, 11, 12], [13, 14, 15], [16, 17, 18]],
          [[19, 20, 21], [22, 23, 24], [25, 26, 27]]]⟩

/-- A 2 by 1 raster whose two rows differ, to exhibit the vertical flip. -/
def rasterTwoRows : Raster := ⟨true, [[[1, 1, 1]], [[2, 2, 2]]]⟩

/-- A well-formed 1 by 1 raster with four channels (alpha sample 7). -/
def rasterRGBA : Raster := ⟨true, [[[1, 2, 3, 7]]]⟩

/-- A 1 by 1 alpha band with sample 5, distinct from the alpha sample of
`rasterRGBA`. -/
def alphaBand : Plane := [[5]]

/-- The per-object Scale inputs of an object placed far outside the
visible viewport. -/
def offScreenObj : ScaleArgs :=
  { imageData := some raster22
    xmin := 10, ymin := 10, xmax := 20, ymax := 20
    dstX := 100, dstY := 100
    scaleX := 1, scaleY := 1, imgScaleX := 1, imgScaleY := 1
    imgInterp := none, settingsInterp := "basic"
    supportedInterp := ["basic"], flipy := false
    panX := 0, panY := 0, dataOff := 0
    cutoutFn := fun d _ _ _ _ _ _ _ => d }

/-- A concrete parameter record for the RGBMap stage callbacks. -/
def params0 : RGBMapParams :=
  { calgName := "linear", cmapName := "gray", imapName := "ramp"
    invertCmap := false, rotateCmapPct := 0, contrast := 1/2, brightness := 1/2 }

/-! ## Theorems -/

/-- C10: when a mini-pipeline stage receives `None` as the published
output of its predecessor, Reorder, Cuts and RGBMap each publish `None`
without raising (Reorder also leaves the `alpha` context key untouched),
and Merge returns leaving the shared destination buffer and the drawn
flag unchanged, so an invisible or imageless overlay flows through the
whole mini-pipeline without error and without altering the composite. -/
theorem C10_none_flows_through :
    (∀ (isRGB : Bool) (io so : ChOrder) (al : Option Plane),
        Reorder.run none isRGB io so al = .ok ⟨none, al⟩) ∧
    (∀ (lo hi : ℚ) (hs : Nat) (f : Raster → ℚ → ℚ → Nat → Nat → Raster),
        Cuts.run none lo hi hs f = .ok none) ∧
    (∀ (so : ChOrder) (g : Raster → ChOrder → Raster),
        RGBMap.run none so g = .ok none) ∧
    (∀ (dst : Raster) (al : Option Plane) (so : ChOrder) (ox oy : ℚ) (dr : Bool)
        (cf : Int → Int) (ovf : Raster → Int × Int → Raster → Raster),
        Merge.run none dst al so ox oy dr cf ovf = .ok ⟨none, dst, dr⟩) :=
  ⟨fun _ _ _ _ => rfl, fun _ _ _ _ => rfl, fun _ _ => rfl,
   fun _ _ _ _ _ _ _ _ => rfl⟩

/-- C7: for a value-mapped (`NormImage`) overlay with an already-built
mini-pipeline, the partial re-run entry point is selected by the
invalidation level: level at most 0 restarts at Scale (stage 0); else if
the cache marks the object invisible nothing runs at all; else level at
most 1 restarts at Cuts (stage 2), level at most 2 restarts at RGBMap
(stage 3), and any higher level restarts at Merge (stage 4) only. -/
theorem C7_norm_image_dispatch (whence : ℚ) (visible : Bool) :
    (prepareNormImage whence visible = some 0 ↔ whence ≤ 0) ∧
    (prepareNormImage whence visible = none ↔ 0 < whence ∧ visible = false) ∧
    (prepareNormImage whence visible = some 2 ↔
      0 < whence ∧ visible = true ∧ whence ≤ 1) ∧
    (prepareNormImage whence visible = some 3 ↔
      0 < whence ∧ visible = true ∧ 1 < whence ∧ whence ≤ 2) ∧
    (prepareNormImage whence visible = some 4 ↔
      0 < whence ∧ visible = true ∧ 2 < whence) ∧
    normStages.getD 0 .merge = .scale ∧ normStages.getD 2 .merge = .cuts ∧
    normStages.getD 3 .merge = .rgbmap ∧ normStages.getD 4 .scale = .merge := by
  refine ⟨?_, ?_, ?_, ?_, ?_, rfl, rfl, rfl, rfl⟩ <;>
  · by_cases h0 : whence ≤ 0
    · simp [prepareNormImage, h0, not_lt.mpr h0]
    · have h0' : (0 : ℚ) < whence := not_le.mp h0
      cases visible
      · simp [prepareNormImage, h0, h0']
      · by_cases h1 : whence ≤ 1
        · simp [prepareNormImage, h0, h0', h1, not_lt.mpr h1,
            not_lt.mpr (h1.trans (by norm_num : (1 : ℚ) ≤ 2))]
        · by_cases h2 : whence ≤ 2
          · simp [prepareNormImage, h0, h0', h1, h2, not_le.mp h1, not_lt.mpr h2]
          · simp [prepareNormImage, h0, h0', h1, h2, not_le.mp h2,
              lt_trans (by norm_num : (1 : ℚ) < 2) (not_le.mp h2)]

/-- C5 counterexample: with rotation exactly 0 but the vertical
coordinate-convention flip enabled (`viewer._invert_y`), the raster
published by Rotate is the vertical flip of its input, not identical to
it, so the claim as stated fails. -/
theorem C5_counterexample :
    (Rotate.run rasterTwoRows false 0 true id 0 0 0 0).map (fun o => o.res) =
      .ok rasterTwoRows.flipud ∧ rasterTwoRows.flipud ≠ rasterTwoRows := by
  refine ⟨rfl, by decide⟩

/-- C5 (amended): for every input raster, when the stage is not bypassed,
the requested rotation magnitude is 0 or below the `np.isclose` epsilon,
and the viewer does not apply the vertical coordinate-convention flip,
the raster published by Rotate is byte-for-byte identical to its
input, whatever the rotation routine does. -/
theorem C5_rotate_zero_identity (data : Raster) (rotDeg : ℚ)
    (rotFn : Raster → Raster) (xoff yoff ctrX ctrY : Int)
    (hwf : data.wellFormedB = true) (hrot : isClose0 rotDeg = true) :
    (Rotate.run data false rotDeg false rotFn xoff yoff ctrX ctrY).map
      (fun o => o.res) = .ok data := by
  unfold Rotate.run
  simp [hwf, hrot, Except.map]

/-- C5 witness: the amended identity at a concrete raster and rotation 0. -/
theorem C5_witness :
    (Rotate.run raster22 false 0 false id 0 0 10 10).map (fun o => o.res) =
      .ok raster22 :=
  C5_rotate_zero_identity raster22 0 id 0 0 10 10 (by decide) (by decide)

/-- C4 counterexample: for a 1 by 1 window the source computes the canvas
side `int(np.sqrt(2) + 20) = 21` (truncation, that is floor), while the
claim states `ceil(sqrt(2)) + 20 = 22`; the published canvas side is 21,
so the claim as stated fails. -/
theorem C4_counterexample :
    canvasSide 1 1 = 21 ∧ specCanvasSide 1 1 = 22 ∧
    (CreateBg.run false false 1 1 ordRGB 0 0 0).map
      (fun o => o.res.map Raster.height) = .ok (some 21) ∧ (21 : Nat) ≠ 22 := by
  have hs : Nat.sqrt 2 = 1 := ((Nat.eq_sqrt (a := 1) (n := 2)).mpr (by omega)).symm
  have hside : canvasSide 1 1 = 21 := by norm_num [canvasSide, hs]
  refine ⟨hside, by norm_num [specCanvasSide, hs], ?_, by omega⟩
  simp [CreateBg.run, hside, make_filled_array, Except.map, Raster.height]

/-- C4 (amended): when CreateBg runs as the first stage and is not
bypassed, it publishes a square canvas whose side is
`floor(sqrt(win_w^2 + win_h^2)) + 20` pixels (the source truncates the
square root rather than taking its ceiling), with every pixel filled with
the configured background color laid out in the declared channel order;
the same side is recorded as the original dimensions. -/
theorem C4_createbg_canvas (winWd winHt : Nat) (order : ChOrder) (r g b : Int) :
    (CreateBg.run false false winWd winHt order r g b).map (fun o =>
      (o.res.map fun img =>
        (img.height,
         img.rows.all fun row => row.length == canvasSide winWd winHt &&
           row.all fun p => p == fillPix order r g b 255),
       o.orgDim)) =
    .ok (some (canvasSide winWd winHt, true),
         some (canvasSide winWd winHt, canvasSide winWd winHt)) := by
  simp only [CreateBg.run, make_filled_array, Except.map, Option.map, Raster.height]
  simp [List.all_eq_true, List.eq_replicate_iff]

/-! Helper lemmas about list indexing, used by the Output theorems. -/

theorem listGetD_map {α β : Type _} (f : α → β) (l : List α) (i : Nat)
    (h : i < l.length) (d : α) (d2 : β) :
    (l.map f).getD i d2 = f (l.getD i d) := by
  induction l generalizing i with
  | nil => simp at h
  | cons x xs ih =>
    cases i with
    | zero => rfl
    | succ n => simpa using ih n (by simpa using h)

theorem listGetD_drop {α : Type _} (l : List α) (n i : Nat) (d : α) :
    (l.drop n).getD i d = l.getD (n + i) d := by
  induction l generalizing n with
  | nil => simp
  | cons x xs ih =>
    cases n with
    | zero => simp
    | succ m =>
      rw [List.drop_succ_cons, Nat.succ_add, List.getD_cons_succ]
      exact ih m

theorem listGetD_take {α : Type _} (l : List α) (n i : Nat) (h : i < n) (d : α) :
    (l.take n).getD i d = l.getD i d := by
  induction l generalizing n i with
  | nil => simp
  | cons x xs ih =>
    cases n with
    | zero => exact absurd h (Nat.not_lt_zero i)
    | succ m =>
      cases i with
      | zero => simp
      | succ k =>
        rw [List.take_succ_cons, List.getD_cons_succ, List.getD_cons_succ]
        exact ih m k (by omega)

theorem listGetD_drop_take_map {α β : Type _} (f : α → β) (l : List α)
    (y n i : Nat) (hi : i < n) (hb : y + i < l.length) (d : α) (d2 : β) :
    (((l.drop y).take n).map f).getD i d2 = f (l.getD (y + i) d) := by
  rw [listGetD_map f _ i ?hlen d d2, listGetD_take _ _ _ hi, listGetD_drop]
  case hlen => simp only [List.length_take, List.length_drop]; omega

/-- The rows of a well-formed raster all have the declared width. -/
theorem wellFormed_rows (data : Raster) (hwf : data.wellFormedB = true) :
    ∀ row ∈ data.rows, row.length = data.width := by
  simp only [Raster.wellFormedB, Bool.and_eq_true, List.all_eq_true,
    beq_iff_eq] at hwf
  intro row hr
  exact (hwf.1 row hr).1

/-- Reduction of `Output.run` on the non-error path. -/
theorem output_run_ok (data : Raster) (winWd winHt : Nat) (dstX dstY : Int)
    (so dOrd : ChOrder) (hwf : data.wellFormedB = true)
    (h1 : winWd ≤ data.width) (h2 : winHt ≤ data.height)
    (h3 : dstX ≤ 0) (h4 : dstY ≤ 0) :
    Output.run data false winWd winHt dstX dstY so dOrd =
      .ok ⟨reorder_image dOrd (data.trim dstY.natAbs winHt dstX.natAbs winWd) so,
           dOrd⟩ := by
  have hA : ¬ (data.width < winWd ∨ data.height < winHt) := by omega
  have hB : ¬ ((0 : Int) < dstX ∨ (0 : Int) < dstY) := by omega
  unfold Output.run
  simp [hwf, hA, hB]

/-- C2: the Output stage, when not bypassed and handed a well-formed
raster, raises a `StageError` (propagated uncaught, modelled by the error
summand) if and only if the input width is smaller than the requested
window width or the input height is smaller than the requested window
height, or the computed destination anchor has a positive x or y
component. -/
theorem C2_output_error_iff (data : Raster) (winWd winHt : Nat) (dstX dstY : Int)
    (so dOrd : ChOrder) (hwf : data.wellFormedB = true) :
    isErr (Output.run data false winWd winHt dstX dstY so dOrd) = true ↔
      (data.width < winWd ∨ data.height < winHt ∨ 0 < dstX ∨ 0 < dstY) := by
  unfold Output.run
  simp only [hwf]
  norm_num
  split_ifs with h1 h2 <;> simp [isErr] <;> try tauto
  all_goals omega

/-- C2 witness: a 1 by 1 raster does not cover a 3 by 3 window, so the
stage errors there. -/
theorem C2_witness :
    isErr (Output.run raster11 false 3 3 0 0 ordRGB ordRGB) = true :=
  (C2_output_error_iff raster11 3 3 0 0 ordRGB ordRGB (by decide)).mpr
    (by decide)

/-- C1 counterexample: a 2 by 2 raster, a 2 by 2 window and a destination
anchor of (0, -1) pass every check of the Output stage (the run completes
without raising), yet the published raster has only one row, not the
requested two: numpy slicing clamps, so the claim as stated fails. -/
theorem C1_counterexample :
    (Output.run raster22 false 2 2 0 (-1) ordRGB ordRGB).map
      (fun o => o.res.height) = .ok 1 ∧ (1 : Nat) ≠ 2 :=
  ⟨rfl, by decide⟩

/-- C1 (amended): for every run of the Output stage that completes without
raising and is not bypassed, if additionally the raster extends at least
to the window size beyond the anchor (`|dst_x| + win_wd ≤ wd` and
`|dst_y| + win_ht ≤ ht`, which the full pipeline arranges), the published
raster has exactly the requested window dimensions, its declared output
order is the order required by the renderer, and every published pixel is
the corresponding input pixel at the anchor offset with its channels
permuted into the order required by the renderer. -/
theorem C1_output_window_exact (data : Raster) (winWd winHt : Nat)
    (dstX dstY : Int) (so dOrd : ChOrder) (hwf : data.wellFormedB = true)
    (h3 : dstX ≤ 0) (h4 : dstY ≤ 0)
    (hcw : dstX.natAbs + winWd ≤ data.width)
    (hch : dstY.natAbs + winHt ≤ data.height) :
    ((Output.run data false winWd winHt dstX dstY so dOrd).map
        fun o => o.res.height) = .ok winHt ∧
    ((Output.run data false winWd winHt dstX dstY so dOrd).map
        fun o => o.res.rows.all fun row => row.length == winWd) = .ok true ∧
    ((Output.run data false winWd winHt dstX dstY so dOrd).map
        fun o => o.outOrder) = .ok dOrd ∧
    ∀ i j, i < winHt → j < winWd →
      ((Output.run data false winWd winHt dstX dstY so dOrd).map
          fun o => (o.res.rows.getD i []).getD j []) =
        .ok (dOrd.map fun c =>
          ((data.rows.getD (dstY.natAbs + i) []).getD (dstX.natAbs + j) []).getD
            (so.indexOf c) 0) := by
  have hrun := output_run_ok data winWd winHt dstX dstY so dOrd hwf
    (by omega) (by omega) h3 h4
  have hrows := wellFormed_rows data hwf
  refine ⟨?_, ?_, ?_, ?_⟩
  · rw [hrun]
    simp only [Except.map, Raster.height, reorder_image, Raster.mapPixels,
      Raster.trim, List.length_map, List.length_take, List.length_drop]
    have : dstY.natAbs + winHt ≤ data.rows.length := hch
    congr 1
    omega
  · rw [hrun]
    simp only [Except.map, reorder_image, Raster.mapPixels, Raster.trim,
      List.map_map, List.all_map, List.all_eq_true]
    norm_num
    intro row hrow
    have hmem : row ∈ data.rows :=
      List.drop_subset _ _ (List.take_subset _ _ hrow)
    have := hrows row hmem
    simp [List.length_take, List.length_drop, this]
    omega
  · rw [hrun]
    rfl
  · intro i j hi hj
    rw [hrun]
    simp only [Except.map, reorder_image, Raster.mapPixels, Raster.trim,
      List.map_map]
    have hbi : dstY.natAbs + i < data.rows.length := by
      have : dstY.natAbs + winHt ≤ data.rows.length := hch
      omega
    rw [listGetD_drop_take_map _ data.rows dstY.natAbs winHt i hi hbi [] []]
    have hmem : data.rows.getD (dstY.natAbs + i) [] ∈ data.rows := by
      rw [List.getD_eq_getElem _ _ hbi]
      exact List.getElem_mem hbi
    have hbj : dstX.natAbs + j < (data.rows.getD (dstY.natAbs + i) []).length := by
      rw [hrows _ hmem]
      omega
    rw [Function.comp]
    rw [listGetD_drop_take_map _ _ dstX.natAbs winWd j hj hbj [] []]

/-- C1 witness: the amended window-exactness at a concrete 3 by 3 raster,
a 2 by 2 window and the anchor (-1, 0). -/
theorem C1_witness :
    ((Output.run raster33 false 2 2 (-1) 0 ordRGB ordRGB).map
        fun o => o.res.height) = .ok 2 ∧
    ((Output.run raster33 false 2 2 (-1) 0 ordRGB ordRGB).map
        fun o => (o.res.rows.getD 1 []).getD 1 []) =
      .ok (ordRGB.map fun c =>
        ((raster33.rows.getD 1 []).getD 2 []).getD (ordRGB.indexOf c) 0) := by
  have h := C1_output_window_exact raster33 2 2 (-1) 0 ordRGB ordRGB
    (by decide) (by decide) (by decide) (by decide) (by decide)
  exact ⟨h.1, by simpa using h.2.2.2 1 1 (by decide) (by decide)⟩

/-- C9 counterexample: the copy-from-viewer mutator of the RGBMap stage
pushes no StageAction at all (it only copies the viewer settings and
re-runs the pipeline), so the claim as stated, that every listed mutator
pushes exactly one StageAction, fails. -/
theorem C9_counterexample :
    countPushes (copyFromViewerCb params0).2 = 0 ∧ (0 : Nat) ≠ 1 :=
  ⟨rfl, by decide⟩

/-- C9 (amended): every user parameter mutator of the RGBMap stage except
copy-from-viewer, that is color map, intensity map, distribution
algorithm, invert, rotate, contrast and brightness, pushes exactly one
StageAction recording the stage, the old parameter values, the new
parameter values and a description, before re-running the pipeline from
that stage; copy-from-viewer pushes none and only re-runs the
pipeline. -/
theorem C9_mutator_actions (p : RGBMapParams)
    (cmapNames imapNames calgNames : List String) (i j k : Nat)
    (rv cv bv : ℚ) (tf : Bool)
    (_hi : i < cmapNames.length) (_hj : j < imapNames.length)
    (_hk : k < calgNames.length) :
    (setCmapCb p cmapNames i).2 =
      [.push ⟨rgbmapStageName, [("cmap_name", .s p.cmapName)],
         [("cmap_name", .s (cmapNames.getD i ""))], "rgbmap / change cmap"⟩,
       .runFrom rgbmapStageName] ∧
    (setImapCb p imapNames j).2 =
      [.push ⟨rgbmapStageName, [("imap_name", .s p.imapName)],
         [("imap_name", .s (imapNames.getD j ""))], "rgbmap / change imap"⟩,
       .runFrom rgbmapStageName] ∧
    (setCalgCb p calgNames k).2 =
      [.push ⟨rgbmapStageName, [("calg_name", .s p.calgName)],
         [("calg_name", .s (calgNames.getD k ""))], "rgbmap / change calg"⟩,
       .runFrom rgbmapStageName] ∧
    (rotateCmapCb p rv).2 =
      [.push ⟨rgbmapStageName, [("rotate_cmap", .q p.rotateCmapPct)],
         [("rotate_cmap", .q (rv / 100))],
         "rgbmap / rotate cmap: " ++ toString (rv / 100)⟩,
       .runFrom rgbmapStageName] ∧
    (invertCmapCb p tf).2 =
      [.push ⟨rgbmapStageName, [("invert_cmap", .b p.invertCmap)],
         [("invert_cmap", .b tf)], "rgbmap / invert cmap " ++ toString tf⟩,
       .runFrom rgbmapStageName] ∧
    (contrastSetCb p cv).2 =
      [.push ⟨rgbmapStageName, [("contrast", .q p.contrast)],
         [("contrast", .q (cv / 100))],
         "rgbmap / contrast: " ++ toString (cv / 100)⟩,
       .runFrom rgbmapStageName] ∧
    (brightnessSetCb p bv).2 =
      [.push ⟨rgbmapStageName, [("brightness", .q p.brightness)],
         [("brightness", .q (bv / 100))],
         "rgbmap / brightness: " ++ toString (bv / 100)⟩,
       .runFrom rgbmapStageName] ∧
    (copyFromViewerCb p).2 = [.runFrom rgbmapStageName] ∧
    countPushes (setCmapCb p cmapNames i).2 = 1 ∧
    countPushes (setImapCb p imapNames j).2 = 1 ∧
    countPushes (setCalgCb p calgNames k).2 = 1 ∧
    countPushes (rotateCmapCb p rv).2 = 1 ∧
    countPushes (invertCmapCb p tf).2 = 1 ∧
    countPushes (contrastSetCb p cv).2 = 1 ∧
    countPushes (brightnessSetCb p bv).2 = 1 ∧
    countPushes (copyFromViewerCb p).2 = 0 :=
  ⟨rfl, rfl, rfl, rfl, rfl, rfl, rfl, rfl,
   rfl, rfl, rfl, rfl, rfl, rfl, rfl, rfl⟩

/-- C9 witness: the amended statement applied at a concrete parameter
record, concrete name lists with in-range indices, and concrete slider
values. -/
theorem C9_witness :
    countPushes (setCmapCb params0 ["gray", "viridis"] 1).2 = 1 ∧
    countPushes (rotateCmapCb params0 25).2 = 1 ∧
    countPushes (copyFromViewerCb params0).2 = 0 := by
  have h := C9_mutator_actions params0 ["gray", "viridis"] ["ramp"] ["linear"]
    1 0 0 25 30 40 true (by decide) (by decide) (by decide)
  obtain ⟨-, -, -, -, -, -, -, -, h1, -, -, h4, -, -, -, h8⟩ := h
  exact ⟨h1, h4, h8⟩

/-- C3 counterexample: when Merge re-attaches a previously split alpha
band into a 4-channel input (the common case: the pipeline order carries
an alpha tag and RGBMap produced a full 4-channel raster), the in-place
write `rgbarr[..., a_idx] = alpha` goes through the reference to the
buffer published by the predecessor and overwrites its alpha band, so the
buffer received from the predecessor is mutated and the claim as stated
fails. -/
theorem C3_counterexample :
    (Merge.run (some rasterRGBA) rasterRGBA (some alphaBand) ordRGBA 0 0 false id
        (fun d _ _ => d)).map (fun o => o.prevBuf) =
      .ok (some ⟨true, [[[1, 2, 3, 5]]]⟩) ∧
    some (⟨true, [[[1, 2, 3, 5]]]⟩ : Raster) ≠ some rasterRGBA :=
  ⟨rfl, by decide⟩

/-- C3 (amended): a stage never mutates the buffer received from its
predecessor, with one exception: Merge, when it re-attaches a previously
split alpha band into an input that already has four channels, overwrites
the alpha band of that input in place.  In particular Rotate always
leaves its input buffer unchanged (it copies before rotating in place and
the vertical flip is a read-only view), and Merge leaves its input
unchanged whenever no alpha band was split off, or the pipeline order
carries no alpha tag, or the input raster does not have exactly four
channels (the `np.insert` path allocates a fresh array). -/
theorem C3_input_buffer_preserved :
    (∀ (data : Raster) (bypass : Bool) (rotDeg : ℚ) (invertY : Bool)
        (rotFn : Raster → Raster) (xoff yoff ctrX ctrY : Int) (out : RotateOut),
        Rotate.run data bypass rotDeg invertY rotFn xoff yoff ctrX ctrY = .ok out →
        out.prevBuf = data) ∧
    (∀ (rgbIn : Option Raster) (dst : Raster) (al : Option Plane) (so : ChOrder)
        (ox oy : ℚ) (dr : Bool) (cf : Int → Int)
        (ovf : Raster → Int × Int → Raster → Raster) (out : MergeOut),
        Merge.run rgbIn dst al so ox oy dr cf ovf = .ok out →
        (al = none ∨ so.contains 'A' = false ∨
          ∀ r, rgbIn = some r → r.depth ≠ 4) →
        out.prevBuf = rgbIn) := by
  constructor
  · intro data bypass rotDeg invertY rotFn xoff yoff ctrX ctrY out h
    unfold Rotate.run at h
    split_ifs at h
    all_goals first
      | exact Except.noConfusion h
      | (simp only [Except.ok.injEq] at h; subst h; rfl)
  · intro rgbIn dst al so ox oy dr cf ovf out h halt
    cases rgbIn with
    | none =>
      simp only [Merge.run, Except.ok.injEq] at h
      subst h
      rfl
    | some rgb0 =>
      simp only [Merge.run] at h
      by_cases hwf : rgb0.wellFormedB = true
      case neg =>
        rw [if_pos (by simp [hwf])] at h
        exact Except.noConfusion h
      rw [if_neg (by simp [hwf])] at h
      by_cases hsh : rgb0.d3 = true ∧ 3 ≤ rgb0.depth
      case neg =>
        rw [if_pos hsh] at h
        exact Except.noConfusion h
      rw [if_neg (not_not_intro hsh)] at h
      cases al with
      | none =>
        simp only [Except.ok.injEq] at h
        subst h
        rfl
      | some apl =>
        simp only [Except.ok.injEq] at h
        rcases halt with h3 | h3 | h3
        · exact Option.noConfusion h3
        · rw [if_neg (by simpa using h3)] at h
          subst h
          rfl
        · by_cases hc : so.contains 'A' = true
          · rw [if_pos hc, if_pos (h3 rgb0 rfl)] at h
            subst h
            rfl
          · rw [if_neg hc] at h
            subst h
            rfl

/-- C3 witness: the amended preservation at a concrete Merge run whose
pipeline order carries no alpha tag. -/
theorem C3_witness :
    Merge.run (some rasterRGBA) rasterRGBA (some alphaBand) ordRGB 0 0 false id
        (fun d _ _ => d) = .ok ⟨some rasterRGBA, rasterRGBA, true⟩ ∧
    (⟨some rasterRGBA, rasterRGBA, true⟩ : MergeOut).prevBuf = some rasterRGBA := by
  have hrun : Merge.run (some rasterRGBA) rasterRGBA (some alphaBand) ordRGB 0 0
      false id (fun d _ _ => d) = .ok ⟨some rasterRGBA, rasterRGBA, true⟩ := rfl
  exact ⟨hrun, C3_input_buffer_preserved.2 (some rasterRGBA) rasterRGBA
    (some alphaBand) ordRGB 0 0 false id (fun d _ _ => d)
    ⟨some rasterRGBA, rasterRGBA, true⟩ hrun (Or.inr (Or.inl rfl))⟩

/-- A raster with at least one row and one column starts with a concrete
pixel. -/
theorem raster_head_struct (r : Raster) (hh : 0 < r.height) (hw : 0 < r.width) :
    ∃ p0 ps rest, r.rows = (p0 :: ps) :: rest := by
  cases hr : r.rows with
  | nil => rw [Raster.height, hr] at hh; simp at hh
  | cons row0 rest =>
    cases hrow : row0 with
    | nil =>
      rw [Raster.width, hr, hrow] at hw
      simp at hw
    | cons p0 ps => exact ⟨p0, ps, rest, rfl⟩

/-- The channel extent of a reordered raster is the length of the
destination order. -/
theorem depth_reorder (dOrd : ChOrder) (r : Raster) (sOrd : ChOrder)
    (hh : 0 < r.height) (hw : 0 < r.width) :
    (reorder_image dOrd r sOrd).depth = dOrd.length := by
  obtain ⟨p0, ps, rest, hR⟩ := raster_head_struct r hh hw
  simp [reorder_image, Raster.mapPixels, Raster.depth, hR]

/-- The channel extent after keeping the first `k` channels. -/
theorem depth_takeChannels (k : Nat) (r : Raster) (hh : 0 < r.height)
    (hw : 0 < r.width) :
    (r.takeChannels k).depth = min k r.depth := by
  obtain ⟨p0, ps, rest, hR⟩ := raster_head_struct r hh hw
  simp [Raster.takeChannels, Raster.depth, hR]

/-- Reordering does not change the row count. -/
theorem height_reorder (dOrd : ChOrder) (r : Raster) (sOrd : ChOrder) :
    (reorder_image dOrd r sOrd).height = r.height := by
  simp [reorder_image, Raster.mapPixels, Raster.height]

/-- Reordering does not change the column count of a nonempty raster. -/
theorem width_reorder (dOrd : ChOrder) (r : Raster) (sOrd : ChOrder)
    (hh : 0 < r.height) :
    (reorder_image dOrd r sOrd).width = r.width := by
  cases hr : r.rows with
  | nil => rw [Raster.height, hr] at hh; simp at hh
  | cons row0 rest =>
    simp [reorder_image, Raster.mapPixels, Raster.width, hr]

/-- The last-axis extent of the raster left after Reorder splits off the
alpha band at channel index `aIdx`: keeping the first `aIdx` channels of a
3-D raster with at least two of them left. -/
theorem split_alpha_extent (d1 : Raster) (aIdx : Nat) (hd3 : d1.d3 = true)
    (hh : 0 < d1.height) (hw : 0 < d1.width)
    (hcut : 2 ≤ min aIdx d1.depth) :
    (if (d1.takeChannels aIdx).depth = 1 then
        { d1.takeChannels aIdx with d3 := false }
      else d1.takeChannels aIdx).lastAxisExtent = min aIdx d1.depth := by
  have hdt := depth_takeChannels aIdx d1 hh hw
  rw [if_neg (by omega)]
  have hd3t : (d1.takeChannels aIdx).d3 = true := hd3
  simp only [Raster.lastAxisExtent, hd3t, if_pos]
  exact hdt

/-- C6 counterexample: a 1 by 1 RGBA image run through Reorder with the
pipeline order R, G, B, A has its alpha band split off, so the published
raster has last-axis extent 3, not the length 4 of the pipeline order,
and the claim as stated fails. -/
theorem C6_counterexample :
    ((Reorder.run (some rasterRGBA) true ordRGBA ordRGBA none).map
        fun o => o.res.map Raster.lastAxisExtent) = .ok (some 3) ∧
    (3 : Nat) ≠ ordRGBA.length :=
  ⟨rfl, by decide⟩

/-- C6 (amended): for every supported channel order and every non-None,
nonempty color image whose channel extent matches its declared order
(with the pipeline order of the same length), the raster published by
Reorder has last-axis extent equal to the length of the pipeline channel
order when the image carries no alpha channel, and equal to that length
minus one when its declared order carries a trailing alpha channel, which
Reorder splits off into the context. -/
theorem C6_reorder_extent (d0 : Raster) (isRGB : Bool) (io so : ChOrder)
    (al : Option Plane) (hwf : d0.wellFormedB = true) (h3 : d0.d3 = true)
    (hh : 0 < d0.height) (hw : 0 < d0.width)
    (hdp : d0.depth = io.length) (hlen : io.length = so.length)
    (h3le : 3 ≤ io.length)
    (halpha : io.contains 'A' = false ∨ io.indexOf 'A' = io.length - 1) :
    ((Reorder.run (some d0) isRGB io so al).map
        fun o => o.res.map Raster.lastAxisExtent) =
      .ok (some (if io.contains 'A' = true then so.length - 1 else so.length)) := by
  have hIdxA : io.contains 'A' = true → io.indexOf 'A' = io.length - 1 := by
    intro hA
    rcases halpha with hF | hI
    · rw [hF] at hA; exact Bool.noConfusion hA
    · exact hI
  simp only [Reorder.run]
  rw [if_neg (by simp [hwf])]
  by_cases hre : isRGB = true ∧ ¬ io = so
  · rw [if_pos hre]
    have hd3' : (reorder_image so d0 io).d3 = true := h3
    have hdh := height_reorder so d0 io
    have hdw := width_reorder so d0 io hh
    have hdp' : (reorder_image so d0 io).depth = io.length := by
      rw [depth_reorder so d0 io hh hw]
      omega
    by_cases hA : io.contains 'A' = true
    · rw [if_neg (not_not_intro hA)]
      simp only [Except.map, Option.map]
      rw [split_alpha_extent _ _ hd3' (by omega) (by omega)
        (by rw [hdp', hIdxA hA]; omega)]
      rw [if_pos hA]
      have hmin : min (io.indexOf 'A') (reorder_image so d0 io).depth =
          so.length - 1 := by
        rw [hdp', hIdxA hA]
        omega
      rw [hmin]
    · rw [if_pos hA, if_neg hA]
      simp only [Except.map, Option.map]
      simp [Raster.lastAxisExtent, hd3', hdp', hlen]
  · rw [if_neg hre]
    by_cases hA : io.contains 'A' = true
    · rw [if_neg (not_not_intro hA)]
      simp only [Except.map, Option.map]
      rw [split_alpha_extent _ _ h3 hh hw
        (by rw [hdp, hIdxA hA]; omega)]
      rw [if_pos hA]
      have hmin : min (io.indexOf 'A') d0.depth = so.length - 1 := by
        rw [hdp, hIdxA hA]
        omega
      rw [hmin]
    · rw [if_pos hA, if_neg hA]
      simp only [Except.map, Option.map]
      simp [Raster.lastAxisExtent, h3, hdp, hlen]

/-- C6 witness: the amended extent statement at a concrete 1 by 1 RGBA
image with the pipeline order R, G, B, A: the published extent is the
order length minus one. -/
theorem C6_witness :
    ((Reorder.run (some rasterRGBA) true ordRGBA ordRGBA none).map
        fun o => o.res.map Raster.lastAxisExtent) =
      .ok (some (ordRGBA.length - 1)) := by
  have h := C6_reorder_extent rasterRGBA true ordRGBA ordRGBA none (by decide)
    rfl (by decide) (by decide) (by decide) rfl (by decide) (Or.inr (by decide))
  simpa using h

/-- The clipped horizontal (or vertical) extent computed by
`calcImageMergeClip` equals the extent of the interval intersection of
the viewport with the placed data rectangle. -/
theorem clip_width_eq (lo hi x w : ℚ) :
    (w - max 0 ((x + w) - hi)) - (max x lo - x) = min hi (x + w) - max lo x := by
  rcases le_total (x + w) hi with h1 | h1 <;> rcases le_total x lo with h2 | h2 <;>
    simp only [min_def, max_def] <;> split_ifs <;> linarith

/-- C8: whenever the intersection of the visible viewport with the placed
data rectangle of an overlay object is empty, the Scale stage marks the
object cache invisible, publishes an empty (`None`) result and stops only
the sub-run of that object, raising no exception; the outer overlay pass
over the remaining objects continues exactly as it would without this
object. -/
theorem C8_scale_empty_halts (o : ScaleArgs) (d : Raster)
    (him : o.imageData = some d) (hwf : d.wellFormedB = true)
    (hempty : interEmpty o.xmin o.ymin o.xmax o.ymax o.dstX o.dstY
      d.width d.height) :
    runObjScale o = .ok ⟨none, some false, true, none⟩ ∧
    ∀ rest, overlayPass (o :: rest) =
      (overlayPass rest).map (⟨none, some false, true, none⟩ :: ·) := by
  have hrun : runObjScale o = .ok ⟨none, some false, true, none⟩ := by
    unfold runObjScale
    rw [him]
    simp only [Scale.run, calcImageMergeClip]
    rw [if_neg (by simp [hwf])]
    rw [if_pos ?cond]
    case cond =>
      rcases hempty with he | he
      · left
        have eq1 := clip_width_eq o.xmin o.xmax o.dstX ((d.width : ℚ) - 1 - 0)
        have he2 : min o.xmax (o.dstX + ((d.width : ℚ) - 1 - 0)) -
            max o.xmin o.dstX ≤ 0 := by simpa using he
        linarith
      · right
        have eq1 := clip_width_eq o.ymin o.ymax o.dstY ((d.height : ℚ) - 1 - 0)
        have he2 : min o.ymax (o.dstY + ((d.height : ℚ) - 1 - 0)) -
            max o.ymin o.dstY ≤ 0 := by simpa using he
        linarith
  refine ⟨hrun, fun rest => ?_⟩
  simp only [overlayPass, List.mapM_cons, hrun]
  cases hrest : rest.mapM runObjScale with
  | error e => rfl
  | ok l => rfl

/-- C8 witness: a concrete object placed far outside the viewport is
marked invisible, publishes nothing, and stops its own sub-run only. -/
theorem C8_witness :
    runObjScale offScreenObj = .ok ⟨none, some false, true, none⟩ ∧
    overlayPass [offScreenObj] = .ok [⟨none, some false, true, none⟩] := by
  have hx : interEmpty offScreenObj.xmin offScreenObj.ymin offScreenObj.xmax
      offScreenObj.ymax offScreenObj.dstX offScreenObj.dstY raster22.width
      raster22.height := by
    simp only [offScreenObj, interEmpty]
    rw [show raster22.width = 2 from rfl, show raster22.height = 2 from rfl]
    left
    norm_num [min_def, max_def]
  have h := C8_scale_empty_halts offScreenObj raster22 rfl (by decide) hx
  exact ⟨h.1, by rw [h.2 []]; rfl⟩

end Ginga
